import Mathlib

/-!
Verification of the portfolio asset scanning and HTML-regeneration pipeline
(`update-portfolio.py`).

The development shallowly embeds the pipeline as pure Lean functions:

* the filesystem snapshot is passed explicitly (album directories, the regular
  files they contain, and each file's modification date already formatted as
  the `YYYY-MM-DD` string that `get_date` produces — date formatting itself is
  an external-library call and is carried as part of the snapshot);
* the parsed `meta.json` and `tags.json` JSON documents are passed as typed
  values (`none` models an absent or malformed document, exactly the
  `load_album_meta` / `load_tags` fallback behaviour);
* reading and writing `portfolio.html` becomes explicit string passing.

String operations mirror the Python semantics on the ASCII range
(`str.lower`, `str.title`, `str.capitalize`, `\s`, `[A-Za-z0-9]` are modelled
with ASCII case mappings and the ASCII whitespace class, which is what every
regex and reserved name in the script uses).  Python dictionaries built by
comprehension keep the last binding for a repeated key (`dictGet`); JSON
objects are assumed to have distinct keys, so `List.lookup` models `dict`
access for the parsed documents.
-/

namespace UpdatePortfolio

/- ── Python string primitives ─────────────────────────────────────────── -/

/-- Python string `<=`: lexicographic comparison by code point. -/
def charListLe : List Char → List Char → Bool
  | [], _ => true
  | _ :: _, [] => false
  | a :: as, b :: bs =>
    if a.toNat < b.toNat then true
    else if b.toNat < a.toNat then false
    else charListLe as bs

def strLe (a b : String) : Bool := charListLe a.data b.data

/-- Insertion used by `insSort`. -/
def insOne (le : α → α → Bool) (x : α) : List α → List α
  | [] => [x]
  | y :: ys => if le y x then y :: insOne le x ys else x :: y :: ys

/-- Ascending sort, modelling Python `sorted` (keys here are distinct
filenames or directory names, so stability is immaterial). -/
def insSort (le : α → α → Bool) : List α → List α
  | [] => []
  | x :: xs => insOne le x (insSort le xs)

def pySortStrs (l : List String) : List String := insSort strLe l

/-- Python `str.lower` (ASCII). -/
def pyLower (s : String) : String := ⟨s.data.map Char.toLower⟩

/-- Python `str.startswith`. -/
def strStarts (s p : String) : Bool := p.data.isPrefixOf s.data

/-- Python `str.endswith`. -/
def strEnds (s p : String) : Bool := p.data.isSuffixOf s.data

/-- Index of the last dot of the list, if any (Python `str.rfind`). -/
def lastDotIdx : List Char → Option Nat
  | [] => none
  | c :: cs =>
    match lastDotIdx cs with
    | some i => some (i + 1)
    | none => if c = '.' then some 0 else none

/-- Python `os.path.splitext` for a bare filename: split at the last dot,
except that a dot with only dots before it does not start an extension. -/
def pySplitext (s : String) : String × String :=
  match lastDotIdx s.data with
  | none => (s, "")
  | some i =>
    if (s.data.take i).all (fun c => c = '.') then (s, "")
    else (⟨s.data.take i⟩, ⟨s.data.drop i⟩)

/-- The ASCII whitespace class of Python `\s` / `str.strip`. -/
def isPySpace (c : Char) : Bool :=
  c = ' ' ∨ c = '\t' ∨ c = '\n' ∨ c = '\x0b' ∨ c = '\x0c' ∨ c = '\r'

/-- Python `str.strip()`. -/
def pyStrip (cs : List Char) : List Char :=
  ((cs.dropWhile isPySpace).reverse.dropWhile isPySpace).reverse

/-- Worker for run collapsing: replace each maximal run of characters
satisfying `p` by a single `' '`; the flag records whether the previous
character belonged to such a run. -/
def collapseRuns (p : Char → Bool) : Bool → List Char → List Char
  | _, [] => []
  | inRun, c :: cs =>
    if p c then (if inRun then [] else [' ']) ++ collapseRuns p true cs
    else c :: collapseRuns p false cs

/-- `re.sub(r'[-_]+', ' ', ·)`: each maximal run of `-`/`_` becomes one space. -/
def subSeps (cs : List Char) : List Char :=
  collapseRuns (fun c => c == '-' || c == '_') false cs

/-- `re.sub(r'\s+', ' ', ·)`: each maximal whitespace run becomes one space. -/
def subWs (cs : List Char) : List Char := collapseRuns isPySpace false cs

/-- Worker for `pyTitle`; the flag records whether the previous character was
a letter (Python title-cases a letter that follows a non-letter). -/
def pyTitleGo : Bool → List Char → List Char
  | _, [] => []
  | prevAlpha, c :: cs =>
    (if c.isAlpha then (if prevAlpha then c.toLower else c.toUpper) else c)
      :: pyTitleGo c.isAlpha cs

/-- Python `str.title` (ASCII). -/
def pyTitle (s : String) : String := ⟨pyTitleGo false s.data⟩

/-- Python `str.capitalize` (ASCII): first character upper, rest lower. -/
def pyCapitalize (s : String) : String :=
  match s.data with
  | [] => ""
  | c :: cs => ⟨c.toUpper :: cs.map Char.toLower⟩

/-- Python `str.zfill` for an unsigned decimal string. -/
def zfill (s : String) (w : Nat) : String :=
  if w ≤ s.length then s else ⟨List.replicate (w - s.length) '0' ++ s.data⟩

/- ── Module constants of update-portfolio.py ──────────────────────────── -/

def PHOTO_EXTS : List String := [".jpg", ".jpeg", ".png", ".webp", ".gif", ".avif"]

def VIDEO_EXTS : List String := [".mp4", ".mov", ".webm", ".avi"]

def POSTER_NAMES : List String :=
  ["poster.jpg", "poster.jpeg", "poster.png", "cover.jpg", "cover.jpeg", "cover.png"]

def POSTER_SUFFIX : String := "_poster"

def IGNORE_DIRS : List String :=
  ["__pycache__", ".DS_Store", ".git", "thumbs", "node_modules"]

def GENERIC_PREFIXES : List String :=
  ["gemini generated image", "grok video", "magnifics mystic", "download",
   "image", "photo", "img", "file", "untitled", "screenshot",
   "captura de pantalla"]

/- ── Title Deriver (make_title) ───────────────────────────────────────── -/

/-- `[0-9a-f]` with `re.I`. -/
def isHexChar (c : Char) : Bool := "0123456789abcdefABCDEF".data.contains c

/-- The 36 character-class checks of the canonical UUID regex
`[0-9a-f]{8}-[0-9a-f]{4}-[0-9a-f]{4}-[0-9a-f]{4}-[0-9a-f]{12}`. -/
def uuidPat : List (Char → Bool) :=
  List.replicate 8 isHexChar ++ [fun c => c == '-'] ++
  List.replicate 4 isHexChar ++ [fun c => c == '-'] ++
  List.replicate 4 isHexChar ++ [fun c => c == '-'] ++
  List.replicate 4 isHexChar ++ [fun c => c == '-'] ++
  List.replicate 12 isHexChar

def matchesPat : List (Char → Bool) → List Char → Bool
  | [], _ => true
  | _ :: _, [] => false
  | p :: ps, c :: cs => p c && matchesPat ps cs

/-- Worker for `removeUuids`, structurally recursive on a fuel parameter so
that it evaluates inside the kernel.  Every step either keeps one character
or removes a 36-character match, so `fuel = length` always suffices and the
zero-fuel branch is unreachable. -/
def removeUuidsAux : Nat → List Char → List Char
  | 0, cs => cs
  | _ + 1, [] => []
  | fuel + 1, c :: cs =>
    if matchesPat uuidPat (c :: cs) then removeUuidsAux fuel ((c :: cs).drop 36)
    else c :: removeUuidsAux fuel cs

/-- `re.sub` of the UUID regex with `''`: every (fixed-length, leftmost,
non-overlapping) occurrence is removed. -/
def removeUuids (cs : List Char) : List Char := removeUuidsAux cs.length cs

/-- `re.sub(r'[-_][A-Za-z0-9]{12,}$', '', ·)`: the match anchors at the end,
so it fires at the leftmost separator whose whole tail is 12+ ASCII
alphanumerics, deleting everything from that separator on. -/
def removeTrailingHash : List Char → List Char
  | [] => []
  | c :: cs =>
    if (c = '-' ∨ c = '_') ∧ 12 ≤ cs.length ∧ cs.all Char.isAlphanum then []
    else c :: removeTrailingHash cs

/-- Steps 1–3 of `make_title`: stem of the filename, UUIDs removed, trailing
hash suffix removed, separators spaced, stripped, whitespace collapsed. -/
def cleanedStem (filename : String) : String :=
  ⟨subWs (pyStrip (subSeps (removeTrailingHash (removeUuids (pySplitext filename).1.data))))⟩

/-- The numeric fallback `f'{album.capitalize()} — {pad}'` with
`pad = str(index).zfill(len(str(total)))`. -/
def numberedTitle (album : String) (index total : Nat) : String :=
  pyCapitalize album ++ " — " ++ zfill (toString index) (toString total).length

/-- Step 5 of `make_title`: the title-cased cleaned stem. -/
def titleCandidate (filename : String) : String := pyTitle (cleanedStem filename)

/-- Step 6 of `make_title`: whether the lower-cased title equals or starts
with one of the generic prefixes.  The Python loop iterates a `set`, but its
only effect is returning the fallback when some prefix matches, so it is
order-independent. -/
def isGenericTitle (t : String) : Bool :=
  GENERIC_PREFIXES.any (fun p => pyLower t == p || strStarts (pyLower t) p)

/-- `make_title(album, filename, index, total)`. -/
def make_title (album filename : String) (index total : Nat) : String :=
  if cleanedStem filename = "" ∨ (cleanedStem filename).length < 2 then
    numberedTitle album index total
  else if isGenericTitle (titleCandidate filename) then
    numberedTitle album index total
  else if 1 < total then
    titleCandidate filename ++ " — " ++ zfill (toString index) (toString total).length
  else titleCandidate filename

/- ── Thumbnail Resolver (find_thumb_for_video) ────────────────────────── -/

/-- The `files_lower` comprehension `{f.lower(): f for f in listdir}`:
lower-cased name paired with the original listing name. -/
def filesLowerDict (files : List String) : List (String × String) :=
  files.map (fun f => (pyLower f, f))

/-- Lookup in a Python dict built by comprehension: for a repeated key the
last binding wins. -/
def dictGet (d : List (String × String)) (k : String) : Option String :=
  d.foldl (fun acc p => if p.1 == k then some p.2 else acc) none

/-- Step 1 of the resolver: `{video_stem}_poster.jpg/.jpeg/.png`, matched
case-insensitively against the album listing, extensions tried in order. -/
def videoPosterLookup (files : List String) (video_filename : String) : Option String :=
  [".jpg", ".jpeg", ".png"].findSome? (fun ext =>
    dictGet (filesLowerDict files)
      (pyLower ((pySplitext video_filename).1 ++ POSTER_SUFFIX ++ ext)))

/-- Step 2 of the resolver: the first reserved poster/cover name present,
in the fixed `POSTER_NAMES` preference order. -/
def albumPosterLookup (files : List String) : Option String :=
  POSTER_NAMES.findSome? (fun name => dictGet (filesLowerDict files) name)

/-- Step 3 of the resolver: first file in sorted order that is not a
reserved poster name, does not carry the `_poster` stem suffix, and has a
photo extension. -/
def firstPhotoFallback (files : List String) : Option String :=
  (pySortStrs files).findSome? (fun f =>
    if POSTER_NAMES.contains (pyLower f) then none
    else if strEnds (pySplitext (pyLower f)).1 POSTER_SUFFIX then none
    else if PHOTO_EXTS.contains (pySplitext (pyLower f)).2 then some f
    else none)

/-- `find_thumb_for_video(album_dir, album_name, video_filename)`; `files`
is the listing of regular files of the album directory. -/
def find_thumb_for_video (files : List String) (album_name video_filename : String) :
    Option String :=
  match videoPosterLookup files video_filename with
  | some orig => some (album_name ++ "/" ++ orig)
  | none =>
    match albumPosterLookup files with
    | some orig => some (album_name ++ "/" ++ orig)
    | none => (firstPhotoFallback files).map (fun f => album_name ++ "/" ++ f)

/- ── Data model ───────────────────────────────────────────────────────── -/

/-- A regular file of an album directory: its name and its modification
date already formatted as `get_date` would return it. -/
structure FileEntry where
  name : String
  date : String
deriving DecidableEq

/-- The optional per-file object of a `meta.json` `assets` map. -/
structure AssetMeta where
  caption : Option String := none
  credit : Option String := none
  featured : Option Bool := none
  order : Option Int := none
  layout : Option String := none
deriving DecidableEq

/-- A parsed `meta.json`: `data.get('albumTitle', None)` and
`data.get('assets', {})`. -/
structure MetaDoc where
  albumTitle : Option String := none
  assets : List (String × AssetMeta) := []
deriving DecidableEq

/-- An album subdirectory: its name, its regular files in listing order,
and its parsed `meta.json` (`none` models both an absent and a malformed
document, which `load_album_meta` treats alike). -/
structure AlbumDir where
  name : String
  files : List FileEntry
  meta : Option MetaDoc := none
deriving DecidableEq

/-- The whole snapshot: the subdirectories of the script directory and the
parsed `tags.json` (`[]` models an absent or malformed document). -/
structure Portfolio where
  albums : List AlbumDir
  tags : List (String × List String) := []
deriving DecidableEq

/-- One asset record as built by `scan_portfolio`; an `Option` field models
presence or absence of the corresponding dict key. -/
structure Asset where
  type : String
  src : String
  thumb : String
  title : String
  album : String
  date : String
  albumTitle : Option String := none
  caption : Option String := none
  credit : Option String := none
  featured : Option Bool := none
  order : Option Int := none
  layout : Option String := none
  duration : Option String := none
  tags : Option (List String) := none
deriving DecidableEq

/- ── Metadata Merger and scanner ──────────────────────────────────────── -/

/-- Python truthiness of an optional string (`if album_title and ...`). -/
def truthyStr : Option String → Bool
  | some s => !(s == "")
  | none => false

/-- `if field in meta_for_file: asset[field] = meta_for_file[field]` for a
single optional field. -/
def ovr (new old : Option α) : Option α :=
  match new with
  | some v => some v
  | none => old

/-- `merge_meta(asset, meta_for_file)`: copy the present optional fields. -/
def merge_meta (a : Asset) (m : AssetMeta) : Asset :=
  { a with
    caption := ovr m.caption a.caption
    credit := ovr m.credit a.credit
    featured := ovr m.featured a.featured
    order := ovr m.order a.order
    layout := ovr m.layout a.layout }

def sortFiles (files : List FileEntry) : List FileEntry :=
  insSort (fun f g => strLe f.name g.name) files

/-- The per-album classification loop over the sorted listing: skip reserved
poster names and `_poster` stems, then split by extension into photos and
videos; anything else is ignored. -/
def classifyFiles : List FileEntry → List FileEntry × List FileEntry
  | [] => ([], [])
  | f :: fs =>
    let rest := classifyFiles fs
    if POSTER_NAMES.contains (pyLower f.name) then rest
    else if strEnds (pySplitext (pyLower f.name)).1 POSTER_SUFFIX then rest
    else if PHOTO_EXTS.contains (pySplitext (pyLower f.name)).2 then (f :: rest.1, rest.2)
    else if VIDEO_EXTS.contains (pySplitext (pyLower f.name)).2 then (rest.1, f :: rest.2)
    else rest

def albumPhotos (d : AlbumDir) : List FileEntry := (classifyFiles (sortFiles d.files)).1

def albumVideos (d : AlbumDir) : List FileEntry := (classifyFiles (sortFiles d.files)).2

def albumTitleOf (d : AlbumDir) : Option String := d.meta.bind (fun m => m.albumTitle)

def albumFileMeta (d : AlbumDir) : List (String × AssetMeta) :=
  match d.meta with
  | some m => m.assets
  | none => []

/-- One photo entry (`i` is the 1-based position in the photo group). -/
def mkPhotoEntry (albumName : String) (aTitle : Option String)
    (fileMeta : List (String × AssetMeta)) (tagsData : List (String × List String))
    (total i : Nat) (f : FileEntry) : Asset :=
  let base : Asset := {
    type := "photo"
    src := albumName ++ "/" ++ f.name
    thumb := albumName ++ "/" ++ f.name
    title := make_title albumName f.name i total
    album := albumName
    date := f.date
    albumTitle := if truthyStr aTitle && i == 1 then aTitle else none }
  let merged :=
    match List.lookup f.name fileMeta with
    | some m => merge_meta base m
    | none => base
  { merged with tags := List.lookup (albumName ++ "/" ++ f.name) tagsData }

/-- Python `x or d` applied to the resolver result. -/
def pyOrStr (x : Option String) (d : String) : String :=
  match x with
  | some s => if s == "" then d else s
  | none => d

/-- One video entry (`listing` is the album directory's file listing passed
to the Thumbnail Resolver; `photosEmpty` is `not photos`). -/
def mkVideoEntry (albumName : String) (aTitle : Option String) (photosEmpty : Bool)
    (fileMeta : List (String × AssetMeta)) (tagsData : List (String × List String))
    (listing : List String) (total i : Nat) (f : FileEntry) : Asset :=
  let base : Asset := {
    type := "video"
    src := albumName ++ "/" ++ f.name
    thumb := pyOrStr (find_thumb_for_video listing albumName f.name) (albumName ++ "/" ++ f.name)
    title := make_title albumName f.name i total
    album := albumName
    date := f.date
    albumTitle := if truthyStr aTitle && photosEmpty then aTitle else none }
  let merged :=
    match List.lookup f.name fileMeta with
    | some m => merge_meta base m
    | none => base
  { merged with tags := List.lookup (albumName ++ "/" ++ f.name) tagsData }

/-- `for i, fname in enumerate(photos, start=1)`. -/
def buildPhotos (albumName : String) (aTitle : Option String)
    (fileMeta : List (String × AssetMeta)) (tagsData : List (String × List String))
    (total : Nat) : Nat → List FileEntry → List Asset
  | _, [] => []
  | i, f :: fs =>
    mkPhotoEntry albumName aTitle fileMeta tagsData total i f ::
      buildPhotos albumName aTitle fileMeta tagsData total (i + 1) fs

/-- `for i, fname in enumerate(videos, start=1)`. -/
def buildVideos (albumName : String) (aTitle : Option String) (photosEmpty : Bool)
    (fileMeta : List (String × AssetMeta)) (tagsData : List (String × List String))
    (listing : List String) (total : Nat) : Nat → List FileEntry → List Asset
  | _, [] => []
  | i, f :: fs =>
    mkVideoEntry albumName aTitle photosEmpty fileMeta tagsData listing total i f ::
      buildVideos albumName aTitle photosEmpty fileMeta tagsData listing total (i + 1) fs

/-- All entries of one album: photos first, then videos. -/
def albumEntries (d : AlbumDir) (tagsData : List (String × List String)) : List Asset :=
  buildPhotos d.name (albumTitleOf d) (albumFileMeta d) tagsData
      (albumPhotos d).length 1 (albumPhotos d)
  ++ buildVideos d.name (albumTitleOf d) (albumPhotos d).isEmpty (albumFileMeta d) tagsData
      (d.files.map (fun f => f.name)) (albumVideos d).length 1 (albumVideos d)

def sortAlbums (ds : List AlbumDir) : List AlbumDir :=
  insSort (fun a b => strLe a.name b.name) ds

/-- The album list: subdirectories not in the ignore set and not hidden,
sorted by name. -/
def scannedAlbums (p : Portfolio) : List AlbumDir :=
  sortAlbums (p.albums.filter (fun d => !IGNORE_DIRS.contains d.name && !strStarts d.name "."))

/-- `scan_portfolio()`: the merged asset records and the album names. -/
def scan_portfolio (p : Portfolio) : List Asset × List String :=
  ((scannedAlbums p).flatMap (fun d => albumEntries d p.tags),
   (scannedAlbums p).map (fun d => d.name))

/- ── Asset List Renderer (js_entry, update_html) ──────────────────────── -/

/-- `.replace("'", "\\'")`. -/
def escapeSq (s : String) : String :=
  ⟨s.data.flatMap (fun c => if c = '\x27' then ['\\', '\x27'] else [c])⟩

/-- Python `', '.join`. -/
def joinCommaSp : List String → String
  | [] => ""
  | [s] => s
  | s :: ss => s ++ ", " ++ joinCommaSp ss

/-- Python `'\n'.join`. -/
def joinNl : List String → String
  | [] => ""
  | [s] => s
  | s :: ss => s ++ "\n" ++ joinNl ss

/-- The fixed seven opening lines of a record. -/
def jsBase (a : Asset) : List String :=
  ["  \x7b",
   "    type:  \x27" ++ a.type ++ "\x27" ++ ",",
   "    src:   \x27" ++ a.src ++ "\x27" ++ ",",
   "    thumb: \x27" ++ a.thumb ++ "\x27" ++ ",",
   "    title: \x27" ++ a.title ++ "\x27" ++ ",",
   "    album: \x27" ++ a.album ++ "\x27" ++ ",",
   "    date:  \x27" ++ a.date ++ "\x27"]

/-- The conditional trailing lines of a record, in source order. -/
def jsTrailing (a : Asset) : List String :=
  (match a.albumTitle with
   | some t => if t = "" then [] else ["    albumTitle: \x27" ++ escapeSq t ++ "\x27"]
   | none => [])
  ++ (match a.duration with
      | some d => ["    duration: \x27" ++ d ++ "\x27"]
      | none => [])
  ++ (match a.caption with
      | some c => ["    caption:  \x27" ++ escapeSq c ++ "\x27"]
      | none => [])
  ++ (match a.credit with
      | some c => ["    credit:   \x27" ++ escapeSq c ++ "\x27"]
      | none => [])
  ++ (match a.featured with
      | some b => if b then ["    featured: true"] else []
      | none => [])
  ++ (match a.order with
      | some n => ["    order:    " ++ toString n]
      | none => [])
  ++ (match a.layout with
      | some l => ["    layout:   \x27" ++ l ++ "\x27"]
      | none => [])
  ++ (match a.tags with
      | some ts =>
        if ts = [] then []
        else ["    tags:     [" ++ joinCommaSp (ts.map (fun t => "\x27" ++ t ++ "\x27")) ++ "]"]
      | none => [])

/-- `lines[-1] += ","`. -/
def addComma : List String → List String
  | [] => []
  | [s] => [s ++ ","]
  | s :: ss => s :: addComma ss

/-- The trailing-append loop: each trailing line is appended after a comma
is added to the previous last line. -/
def appendTrailing : List String → List String → List String
  | ls, [] => ls
  | ls, t :: ts => appendTrailing (addComma ls ++ [t]) ts

/-- `js_entry(asset)`. -/
def js_entry (a : Asset) : String :=
  joinNl (appendTrailing (jsBase a) (jsTrailing a) ++ ["  \x7d"])

/-- The album-boundary separator comment line. -/
def sepLine (album : String) : String :=
  "\n  // ── Álbum: " ++ album ++ " ─────────────────────────────────────────────"

/-- The body-building loop of `update_html`: `cur` is `current_album`
(`none` initially), a separator is emitted whenever the record's album
differs from it. -/
def renderBody (cur : Option String) : List Asset → List String
  | [] => []
  | a :: rest =>
    if some a.album == cur then (js_entry a ++ ",") :: renderBody cur rest
    else sepLine a.album :: (js_entry a ++ ",") :: renderBody (some a.album) rest

def headerLines : List String := ["// ASSETS:START", "const ASSETS = ["]

def footerLines : List String := ["];", "// ASSETS:END"]

/-- `new_block`: header, body and footer joined by newlines. -/
def newBlock (assets : List Asset) : String :=
  joinNl headerLines ++ "\n" ++ joinNl (renderBody none assets) ++ "\n" ++ joinNl footerLines

def startMarker : String := "// ASSETS:START"

def endMarker : String := "// ASSETS:END"

/-- First index at which `pat` occurs in the list, if any. -/
def findSub (pat : List Char) : List Char → Option Nat
  | [] => if pat.isEmpty then some 0 else none
  | c :: cs =>
    if pat.isPrefixOf (c :: cs) then some 0
    else (findSub pat cs).map (fun i => i + 1)

/-- The leftmost match of the non-greedy `re.DOTALL` pattern
`// ASSETS:START.*?// ASSETS:END`: the text before the match and the text
after it.  The match starts at the first occurrence of the start marker and
ends at the end of the first occurrence of the end marker after it. -/
def findMatchSplit (s : List Char) : Option (List Char × List Char) :=
  match findSub startMarker.data s with
  | none => none
  | some i =>
    match findSub endMarker.data (s.drop (i + startMarker.data.length)) with
    | none => none
    | some j =>
      some (s.take i,
        (s.drop (i + startMarker.data.length)).drop (j + endMarker.data.length))

/-- `re.sub` replaces every non-overlapping leftmost match; structurally
recursive on a fuel parameter.  Each replacement consumes at least the
start marker from the remaining text, so `fuel = length` always suffices
and the zero-fuel branch is unreachable. -/
def subAllAux (block : List Char) : Nat → List Char → List Char
  | 0, s => s
  | fuel + 1, s =>
    match findMatchSplit s with
    | none => s
    | some (pre, post) => pre ++ block ++ subAllAux block fuel post

def subAll (block s : List Char) : List Char := subAllAux block s.length s

/-- `update_html(assets, albums)` on an explicit host document: returns the
success flag and the (possibly rewritten) document.  The `albums` argument
is accepted and unused, exactly as in the source. -/
def update_html (assets : List Asset) (_albums : List String) (html : String) :
    Bool × String :=
  if (findMatchSplit html.data).isSome then
    (true, ⟨subAll (newBlock assets).data html.data⟩)
  else (false, html)

/-- One full scan–merge–render–splice run: the emitted block, the success
flag and the resulting host document. -/
def run_pipeline (p : Portfolio) (html : String) : String × Bool × String :=
  (newBlock (scan_portfolio p).1,
   update_html (scan_portfolio p).1 (scan_portfolio p).2 html)

/- ── Renderer separator placement, stated two ways ────────────────────── -/

/-- Records after the first one: a separator is inserted exactly between
consecutive records whose albums differ. -/
def renderBodyTail (prev : String) : List Asset → List String
  | [] => []
  | a :: rest =>
    if a.album == prev then (js_entry a ++ ",") :: renderBodyTail prev rest
    else sepLine a.album :: (js_entry a ++ ",") :: renderBodyTail a.album rest

/-- The amended reading of the separator rule: one separator before the
first record, then one wherever the album changes between consecutive
records. -/
def renderBodySpec : List Asset → List String
  | [] => []
  | a :: rest => sepLine a.album :: (js_entry a ++ ",") :: renderBodyTail a.album rest

/-- The separator rule exactly as claim C7 states it: separators appear
only at positions where the album changes between consecutive records
(hence no separator before the first record). -/
def renderBodyClaimed : List Asset → List String
  | [] => []
  | a :: rest => (js_entry a ++ ",") :: renderBodyTail a.album rest

/- ── Infix relation used to state the escaping claims ─────────────────── -/

/-- `p` occurs contiguously inside `s`. -/
def occursIn (p s : String) : Prop := p.data <:+: s.data

/- ── Concrete instances used by claim theorems ────────────────────────── -/

def c1CeAlbum : AlbumDir :=
  { name := "a",
    files := [⟨"v1.mp4", "2024-01-01"⟩, ⟨"v2.mp4", "2024-01-02"⟩],
    meta := some { albumTitle := some "T" } }

def c1CePortfolio : Portfolio := { albums := [c1CeAlbum] }

def c1WitAlbum : AlbumDir :=
  { name := "b",
    files := [⟨"p1.jpg", "2024-01-01"⟩, ⟨"p2.jpg", "2024-01-02"⟩, ⟨"v.mp4", "2024-01-03"⟩],
    meta := some { albumTitle := some "U" } }

def c6WitPortfolio : Portfolio :=
  { albums := [{ name := "a", files := [⟨"x.jpg", "2024-01-01"⟩] }],
    tags := [("a/x.jpg", [])] }

def c6WitAsset : Asset :=
  { type := "photo", src := "a/x.jpg", thumb := "a/x.jpg", title := "A — 1",
    album := "a", date := "2024-01-01", tags := some [] }

def c7CeAsset : Asset :=
  { type := "photo", src := "a/x.jpg", thumb := "a/x.jpg", title := "X",
    album := "a", date := "2024-01-01" }

def c9WitAsset : Asset :=
  { type := "photo", src := "a/x.jpg", thumb := "a/x.jpg", title := "Don\x27t Stop",
    album := "a", date := "2024-01-01", albumTitle := some "Kids\x27 Art",
    caption := some "mom\x27s day", credit := some "us", layout := some "wide",
    duration := some "0:12", tags := some ["urban", "neon"] }

def c10WitAsset : Asset :=
  { type := "photo", src := "a/x.jpg", thumb := "a/x.jpg", title := "X",
    album := "a", date := "2024-01-01", caption := some "hey", tags := some [] }

/- ── Generic string lemmas ────────────────────────────────────────────── -/

theorem data_append (a b : String) : (a ++ b).data = a.data ++ b.data := rfl

theorem data_mk (l : List Char) : (String.mk l).data = l := rfl

theorem slength_eq_data (s : String) : s.length = s.data.length := rfl

theorem slength_append (a b : String) : (a ++ b).length = a.length + b.length := by
  show (a.data ++ b.data).length = a.data.length + b.data.length
  exact List.length_append a.data b.data

theorem ne_empty_of_length_pos {s : String} (h : 0 < s.length) : s ≠ "" := by
  intro he
  rw [he] at h
  simp at h

theorem numberedTitle_ne_empty (album : String) (index total : Nat) :
    numberedTitle album index total ≠ "" := by
  apply ne_empty_of_length_pos
  rw [numberedTitle, slength_append, slength_append]
  have h3 : (" — " : String).length = 3 := by decide
  omega

theorem pyTitleGo_length (b : Bool) (cs : List Char) : (pyTitleGo b cs).length = cs.length := by
  induction cs generalizing b with
  | nil => rfl
  | cons c cs ih => simp [pyTitleGo, ih]

theorem titleCandidate_length (filename : String) :
    (titleCandidate filename).length = (cleanedStem filename).length := by
  rw [titleCandidate, pyTitle, slength_eq_data, data_mk, pyTitleGo_length]
  rfl

/- ── Claim theorems: the Title Deriver ────────────────────────────────── -/

/- ── Lemmas about the marker search ───────────────────────────────────── -/

theorem findSub_found_at : ∀ (s : List Char) (pat : List Char) (i : Nat),
    findSub pat s = some i → pat <+: s.drop i := by
  intro s
  induction s with
  | nil =>
    intro pat i h
    rw [findSub] at h
    split at h
    · next he =>
      cases h
      rw [show pat = [] from List.isEmpty_iff.mp he]
      exact List.nil_prefix
    · cases h
  | cons c cs ih =>
    intro pat i h
    rw [findSub] at h
    split at h
    · next hp =>
      cases h
      exact List.isPrefixOf_iff_prefix.mp hp
    · next hp =>
      rcases Option.map_eq_some'.mp h with ⟨j, hj, rfl⟩
      exact ih pat j hj

theorem findSub_some_decomp (s pat : List Char) (i : Nat) (h : findSub pat s = some i) :
    s = s.take i ++ pat ++ s.drop (i + pat.length) := by
  obtain ⟨t, ht⟩ := findSub_found_at s pat i h
  have h1 : (s.drop i).drop pat.length = t := by
    rw [← ht]
    exact List.drop_left pat t
  have hdrop : s.drop (i + pat.length) = t := by
    rw [← h1, List.drop_drop, Nat.add_comm]
  rw [hdrop, List.append_assoc, ht, List.take_append_drop]

theorem findSub_isSome_of_occurrence : ∀ (pre : List Char) (s pat rest : List Char),
    s = pre ++ pat ++ rest → (findSub pat s).isSome = true := by
  intro pre
  induction pre with
  | nil =>
    intro s pat rest h
    simp only [List.nil_append] at h
    subst h
    cases pat with
    | nil => cases rest <;> simp [findSub, List.isPrefixOf]
    | cons p ps =>
      have hp : (p :: ps).isPrefixOf ((p :: ps) ++ rest) = true :=
        List.isPrefixOf_iff_prefix.mpr ⟨rest, rfl⟩
      simp only [List.cons_append] at hp ⊢
      simp [findSub, hp]
  | cons c pre ih =>
    intro s pat rest h
    subst h
    have hform : (c :: pre) ++ pat ++ rest = c :: (pre ++ pat ++ rest) := by simp
    rw [hform]
    cases pat with
    | nil => simp [findSub, List.isPrefixOf]
    | cons p ps =>
      rw [findSub]
      by_cases hp : (p :: ps).isPrefixOf (c :: (pre ++ (p :: ps) ++ rest)) = true
      · rw [if_pos hp]
        rfl
      · rw [if_neg hp]
        have hrec := ih (pre ++ (p :: ps) ++ rest) (p :: ps) rest rfl
        rcases Option.isSome_iff_exists.mp hrec with ⟨j, hj⟩
        rw [hj]
        rfl

theorem findSub_min : ∀ (s pat : List Char) (i : Nat) (pre rest : List Char),
    findSub pat s = some i → s = pre ++ pat ++ rest → i ≤ pre.length := by
  intro s
  induction s with
  | nil =>
    intro pat i pre rest h hocc
    rw [findSub] at h
    split at h
    · cases h
      exact Nat.zero_le _
    · cases h
  | cons c cs ih =>
    intro pat i pre rest h hocc
    rw [findSub] at h
    split at h
    · cases h
      exact Nat.zero_le _
    · next hp =>
      rcases Option.map_eq_some'.mp h with ⟨j, hj, rfl⟩
      cases pre with
      | nil =>
        exfalso
        apply hp
        simp only [List.nil_append] at hocc
        exact List.isPrefixOf_iff_prefix.mpr ⟨rest, hocc.symm⟩
      | cons c' pre' =>
        have hcs : cs = pre' ++ pat ++ rest := by
          simpa using congrArg List.tail hocc
        simpa using Nat.succ_le_succ (ih pat j pre' rest hj hcs)

theorem findMatchSplit_isSome_of (s : List Char) (i j : Nat)
    (hi : findSub startMarker.data s = some i)
    (hj : findSub endMarker.data (s.drop (i + startMarker.data.length)) = some j) :
    (findMatchSplit s).isSome = true := by
  unfold findMatchSplit
  split
  · next heq =>
    rw [heq] at hi
    cases hi
  · next i' heq =>
    rw [heq] at hi
    cases hi
    split
    · next heq2 =>
      rw [heq2] at hj
      cases hj
    · next j' heq2 => rfl

/-- `re.search(r'// ASSETS:START.*?// ASSETS:END', html, re.DOTALL)` succeeds
exactly when the document contains the start marker followed (anywhere
later) by the end marker. -/
theorem hasMarkers_iff (html : String) :
    (findMatchSplit html.data).isSome = true ↔
      ∃ pre mid post : List Char,
        html.data = pre ++ startMarker.data ++ mid ++ endMarker.data ++ post := by
  constructor
  · intro h
    rw [findMatchSplit] at h
    split at h
    · simp at h
    · next i hi =>
      split at h
      · simp at h
      · next j hj =>
        refine ⟨html.data.take i,
          (html.data.drop (i + startMarker.data.length)).take j,
          (html.data.drop (i + startMarker.data.length)).drop (j + endMarker.data.length),
          ?_⟩
        have h1 := findSub_some_decomp html.data startMarker.data i hi
        have h2 := findSub_some_decomp (html.data.drop (i + startMarker.data.length))
          endMarker.data j hj
        conv_lhs => rw [h1]
        conv_lhs => rw [h2]
        simp [List.append_assoc]
  · rintro ⟨pre, mid, post, h⟩
    have hocc : html.data = pre ++ startMarker.data ++ (mid ++ endMarker.data ++ post) := by
      rw [h]
      simp [List.append_assoc]
    have hs := findSub_isSome_of_occurrence pre html.data startMarker.data
      (mid ++ endMarker.data ++ post) hocc
    rcases Option.isSome_iff_exists.mp hs with ⟨i, hi⟩
    have hle : i ≤ pre.length := findSub_min html.data startMarker.data i pre
      (mid ++ endMarker.data ++ post) hi hocc
    -- the end marker occurs in the text after position i + |start|
    have hA : html.data = (pre ++ startMarker.data ++ mid) ++ endMarker.data ++ post := by
      rw [h]
    have hlen : i + startMarker.data.length ≤ (pre ++ startMarker.data ++ mid).length := by
      simp only [List.length_append]
      omega
    have hdrop : html.data.drop (i + startMarker.data.length) =
        (pre ++ startMarker.data ++ mid).drop (i + startMarker.data.length) ++
          endMarker.data ++ post := by
      conv_lhs => rw [hA]
      rw [List.append_assoc (pre ++ startMarker.data ++ mid) endMarker.data post,
        List.drop_append_of_le_length hlen]
      simp [List.append_assoc]
    have he := findSub_isSome_of_occurrence
      ((pre ++ startMarker.data ++ mid).drop (i + startMarker.data.length))
      (html.data.drop (i + startMarker.data.length)) endMarker.data post hdrop
    rcases Option.isSome_iff_exists.mp he with ⟨j, hj⟩
    exact findMatchSplit_isSome_of html.data i j hi hj

/- ── Claim theorems: pipeline determinism and splicing ────────────────── -/

/-- Claim C2: running the full scan–merge–render pipeline twice against the
same unchanged filesystem snapshot and unchanged metadata and tag documents
produces byte-for-byte identical rendered ASSETS blocks.  The second run is
performed against the host document produced by the first, and the blocks
emitted by the two runs coincide: the block is a deterministic function of
the snapshot and the documents alone. -/
theorem c2_pipeline_block_deterministic (p : Portfolio) (html : String) :
    (run_pipeline p (run_pipeline p html).2.2).1 = (run_pipeline p html).1 := rfl

/-- Claim C3: if the host document does not contain the `ASSETS:START`
marker followed by the `ASSETS:END` marker, `update_html` reports failure
(`false`) and returns the document unchanged; when both markers are found
it reports success (and only then does it rewrite the document). -/
theorem c3_splice_requires_markers (assets : List Asset) (albums : List String)
    (html : String) :
    (¬ (∃ pre mid post : List Char,
          html.data = pre ++ startMarker.data ++ mid ++ endMarker.data ++ post) →
        update_html assets albums html = (false, html))
    ∧ ((∃ pre mid post : List Char,
          html.data = pre ++ startMarker.data ++ mid ++ endMarker.data ++ post) →
        (update_html assets albums html).1 = true) := by
  constructor
  · intro h
    have hf : (findMatchSplit html.data).isSome = false := by
      by_contra hc
      exact h ((hasMarkers_iff html).mp (eq_true_of_ne_false hc))
    simp [update_html, hf]
  · intro h
    have ht : (findMatchSplit html.data).isSome = true := (hasMarkers_iff html).mpr h
    simp [update_html, ht]

/-- Witness for C3: a host document with no markers is returned unchanged
with a `false` flag, and one with both markers yields a `true` flag. -/
theorem c3_splice_requires_markers_witness :
    update_html [] [] "hello" = (false, "hello") ∧
      (update_html [] [] "a // ASSETS:START b // ASSETS:END c").1 = true := by
  constructor
  · refine (c3_splice_requires_markers [] [] "hello").1 (fun h => ?_)
    have := (hasMarkers_iff "hello").mpr h
    exact absurd this (by decide)
  · refine (c3_splice_requires_markers [] [] "a // ASSETS:START b // ASSETS:END c").2 ?_
    have : (findMatchSplit ("a // ASSETS:START b // ASSETS:END c" : String).data).isSome
        = true := by decide
    exact (hasMarkers_iff "a // ASSETS:START b // ASSETS:END c").mp this

/- ── Claim theorems: the Thumbnail Resolver ───────────────────────────── -/

theorem merge_meta_thumb (a : Asset) (m : AssetMeta) : (merge_meta a m).thumb = a.thumb := rfl

/-- The thumb of a video entry is the resolver result, with the video's own
path substituted when the result is falsy. -/
theorem mkVideoEntry_thumb (albumName : String) (aTitle : Option String)
    (photosEmpty : Bool) (fileMeta : List (String × AssetMeta))
    (tagsData : List (String × List String)) (listing : List String)
    (total i : Nat) (f : FileEntry) :
    (mkVideoEntry albumName aTitle photosEmpty fileMeta tagsData listing total i f).thumb =
      pyOrStr (find_thumb_for_video listing albumName f.name) (albumName ++ "/" ++ f.name) := by
  cases hl : List.lookup f.name fileMeta with
  | none => simp [mkVideoEntry, hl]
  | some m => simp [mkVideoEntry, hl, merge_meta]

/-- Claim C4: `find_thumb_for_video` follows the strict priority
(a) video-specific `{stem}_poster.{jpg|jpeg|png}`, then (b) the first
reserved poster/cover name in the fixed preference order, then (c) the
first photo in sorted order that is neither a reserved poster name nor a
`_poster`-suffixed file; it returns `none` when no candidate exists, and in
that case the video entry built by the scanner uses the video's own path as
its thumbnail. -/
theorem c4_thumb_priority (files : List String) (album v : String) :
    (∀ r, videoPosterLookup files v = some r →
        find_thumb_for_video files album v = some (album ++ "/" ++ r))
    ∧ (∀ r, videoPosterLookup files v = none → albumPosterLookup files = some r →
        find_thumb_for_video files album v = some (album ++ "/" ++ r))
    ∧ (videoPosterLookup files v = none → albumPosterLookup files = none →
        find_thumb_for_video files album v =
          (firstPhotoFallback files).map (fun f => album ++ "/" ++ f))
    ∧ (videoPosterLookup files v = none → albumPosterLookup files = none →
        firstPhotoFallback files = none → find_thumb_for_video files album v = none)
    ∧ (∀ (aTitle : Option String) (photosEmpty : Bool)
        (fileMeta : List (String × AssetMeta)) (tagsData : List (String × List String))
        (total i : Nat) (f : FileEntry),
        find_thumb_for_video files album f.name = none →
          (mkVideoEntry album aTitle photosEmpty fileMeta tagsData files total i f).thumb =
            album ++ "/" ++ f.name) := by
  refine ⟨?_, ?_, ?_, ?_, ?_⟩
  · intro r h
    simp [find_thumb_for_video, h]
  · intro r h1 h2
    simp [find_thumb_for_video, h1, h2]
  · intro h1 h2
    simp [find_thumb_for_video, h1, h2]
  · intro h1 h2 h3
    simp [find_thumb_for_video, h1, h2, h3]
  · intro aTitle photosEmpty fileMeta tagsData total i f h
    rw [mkVideoEntry_thumb, h]
    rfl

/-- Witness for C4: an album with no files at all has no poster candidate,
the resolver returns `none`, and the built video entry falls back to the
video's own path. -/
theorem c4_thumb_priority_witness :
    find_thumb_for_video [] "a" "v.mp4" = none ∧
      (mkVideoEntry "a" none true [] [] [] 1 1 ⟨"v.mp4", "2024-01-01"⟩).thumb = "a/v.mp4" := by
  have h := c4_thumb_priority [] "a" "v.mp4"
  have hnone : find_thumb_for_video [] "a" "v.mp4" = none :=
    h.2.2.2.1 (by decide) (by decide) (by decide)
  exact ⟨hnone,
    h.2.2.2.2 none true [] [] 1 1 ⟨"v.mp4", "2024-01-01"⟩ hnone⟩

/-- Claim C5: whenever the cleaned stem (after UUID removal, trailing
hash-suffix removal and separator/whitespace cleanup) is empty or shorter
than 2 characters, `make_title` returns exactly the numeric fallback
`"{Album capitalized} — {zero-padded index}"`, padded to the digit count of
the group total. -/
theorem c5_short_stem_fallback (album filename : String) (index total : Nat)
    (h : cleanedStem filename = "" ∨ (cleanedStem filename).length < 2) :
    make_title album filename index total =
      pyCapitalize album ++ " — " ++ zfill (toString index) (toString total).length := by
  rw [make_title, if_pos h, numberedTitle]

/-- Witness for C5 at `album = "album"`, `filename = "a.jpg"`, index 3 of 12:
the cleaned stem `"a"` has length 1, and the derived title is the numeric
fallback `"Album — 03"`. -/
theorem c5_short_stem_fallback_witness :
    (cleanedStem "a.jpg" = "" ∨ (cleanedStem "a.jpg").length < 2) ∧
      make_title "album" "a.jpg" 3 12 =
        pyCapitalize "album" ++ " — " ++ zfill (toString 3) (toString 12).length :=
  ⟨Or.inr (by decide), c5_short_stem_fallback "album" "a.jpg" 3 12 (Or.inr (by decide))⟩

/-- Claim C8: `make_title` is total (it is a Lean function defined for every
album name, filename, index and total) and never returns the empty string.
The statement is proved for all `Nat` indices and totals, which covers in
particular every 1-based index and positive total. -/
theorem c8_make_title_total_nonempty (album filename : String) (index total : Nat) :
    make_title album filename index total ≠ "" := by
  rw [make_title]
  split
  · exact numberedTitle_ne_empty album index total
  · next h =>
    push_neg at h
    obtain ⟨hne, hlen⟩ := h
    have htl : (titleCandidate filename).length = (cleanedStem filename).length :=
      titleCandidate_length filename
    split
    · exact numberedTitle_ne_empty album index total
    · split
      · apply ne_empty_of_length_pos
        rw [slength_append, slength_append]
        omega
      · apply ne_empty_of_length_pos
        omega

/- ── Lemmas about the built entries ───────────────────────────────────── -/

theorem merge_meta_albumTitle (a : Asset) (m : AssetMeta) :
    (merge_meta a m).albumTitle = a.albumTitle := rfl

theorem merge_meta_src (a : Asset) (m : AssetMeta) : (merge_meta a m).src = a.src := rfl

theorem merge_meta_tags (a : Asset) (m : AssetMeta) : (merge_meta a m).tags = a.tags := rfl

theorem mkPhotoEntry_albumTitle (albumName : String) (aTitle : Option String)
    (fileMeta : List (String × AssetMeta)) (tagsData : List (String × List String))
    (total i : Nat) (f : FileEntry) :
    (mkPhotoEntry albumName aTitle fileMeta tagsData total i f).albumTitle =
      (if truthyStr aTitle && i == 1 then aTitle else none) := by
  cases hl : List.lookup f.name fileMeta with
  | none => simp [mkPhotoEntry, hl]
  | some m => simp [mkPhotoEntry, hl, merge_meta]

theorem mkVideoEntry_albumTitle (albumName : String) (aTitle : Option String)
    (photosEmpty : Bool) (fileMeta : List (String × AssetMeta))
    (tagsData : List (String × List String)) (listing : List String)
    (total i : Nat) (f : FileEntry) :
    (mkVideoEntry albumName aTitle photosEmpty fileMeta tagsData listing total i f).albumTitle =
      (if truthyStr aTitle && photosEmpty then aTitle else none) := by
  cases hl : List.lookup f.name fileMeta with
  | none => simp [mkVideoEntry, hl]
  | some m => simp [mkVideoEntry, hl, merge_meta]

theorem mkPhotoEntry_src (albumName : String) (aTitle : Option String)
    (fileMeta : List (String × AssetMeta)) (tagsData : List (String × List String))
    (total i : Nat) (f : FileEntry) :
    (mkPhotoEntry albumName aTitle fileMeta tagsData total i f).src =
      albumName ++ "/" ++ f.name := by
  cases hl : List.lookup f.name fileMeta with
  | none => simp [mkPhotoEntry, hl]
  | some m => simp [mkPhotoEntry, hl, merge_meta]

theorem mkPhotoEntry_tags (albumName : String) (aTitle : Option String)
    (fileMeta : List (String × AssetMeta)) (tagsData : List (String × List String))
    (total i : Nat) (f : FileEntry) :
    (mkPhotoEntry albumName aTitle fileMeta tagsData total i f).tags =
      List.lookup (albumName ++ "/" ++ f.name) tagsData := by
  cases hl : List.lookup f.name fileMeta with
  | none => simp [mkPhotoEntry, hl]
  | some m => simp [mkPhotoEntry, hl, merge_meta]

theorem mkVideoEntry_src (albumName : String) (aTitle : Option String)
    (photosEmpty : Bool) (fileMeta : List (String × AssetMeta))
    (tagsData : List (String × List String)) (listing : List String)
    (total i : Nat) (f : FileEntry) :
    (mkVideoEntry albumName aTitle photosEmpty fileMeta tagsData listing total i f).src =
      albumName ++ "/" ++ f.name := by
  cases hl : List.lookup f.name fileMeta with
  | none => simp [mkVideoEntry, hl]
  | some m => simp [mkVideoEntry, hl, merge_meta]

theorem mkVideoEntry_tags (albumName : String) (aTitle : Option String)
    (photosEmpty : Bool) (fileMeta : List (String × AssetMeta))
    (tagsData : List (String × List String)) (listing : List String)
    (total i : Nat) (f : FileEntry) :
    (mkVideoEntry albumName aTitle photosEmpty fileMeta tagsData listing total i f).tags =
      List.lookup (albumName ++ "/" ++ f.name) tagsData := by
  cases hl : List.lookup f.name fileMeta with
  | none => simp [mkVideoEntry, hl]
  | some m => simp [mkVideoEntry, hl, merge_meta]

theorem buildPhotos_mem (albumName : String) (aTitle : Option String)
    (fileMeta : List (String × AssetMeta)) (tagsData : List (String × List String))
    (total : Nat) : ∀ (i : Nat) (fs : List FileEntry) (a : Asset),
    a ∈ buildPhotos albumName aTitle fileMeta tagsData total i fs →
    ∃ j f, a = mkPhotoEntry albumName aTitle fileMeta tagsData total j f := by
  intro i fs
  induction fs generalizing i with
  | nil =>
    intro a h
    rw [buildPhotos] at h
    cases h
  | cons f fs ih =>
    intro a h
    rw [buildPhotos] at h
    rcases List.mem_cons.mp h with h1 | h1
    · exact ⟨i, f, h1⟩
    · exact ih (i + 1) a h1

theorem buildVideos_mem (albumName : String) (aTitle : Option String)
    (photosEmpty : Bool) (fileMeta : List (String × AssetMeta))
    (tagsData : List (String × List String)) (listing : List String)
    (total : Nat) : ∀ (i : Nat) (fs : List FileEntry) (a : Asset),
    a ∈ buildVideos albumName aTitle photosEmpty fileMeta tagsData listing total i fs →
    ∃ j f, a = mkVideoEntry albumName aTitle photosEmpty fileMeta tagsData listing total j f := by
  intro i fs
  induction fs generalizing i with
  | nil =>
    intro a h
    rw [buildVideos] at h
    cases h
  | cons f fs ih =>
    intro a h
    rw [buildVideos] at h
    rcases List.mem_cons.mp h with h1 | h1
    · exact ⟨i, f, h1⟩
    · exact ih (i + 1) a h1

/- ── Claim theorems: the Metadata Merger ──────────────────────────────── -/

/-- Claim C6: for every asset produced by the scan, the `tags` field equals
the tag-assignment document's entry for the asset's relative path
`"{album}/{filename}"` (which is the asset's `src`): it is present exactly
when the path is a key of the document and then carries the document's tag
list verbatim, even when that list is empty; otherwise no `tags` field is
set. -/
theorem c6_tags_lookup (p : Portfolio) (a : Asset) (h : a ∈ (scan_portfolio p).1) :
    a.tags = List.lookup a.src p.tags := by
  rcases List.mem_flatMap.mp h with ⟨d, _, ha⟩
  rw [albumEntries] at ha
  rcases List.mem_append.mp ha with h1 | h1
  · rcases buildPhotos_mem d.name (albumTitleOf d) (albumFileMeta d) p.tags
      (albumPhotos d).length 1 (albumPhotos d) a h1 with ⟨j, f, rfl⟩
    rw [mkPhotoEntry_tags, mkPhotoEntry_src]
  · rcases buildVideos_mem d.name (albumTitleOf d) (albumPhotos d).isEmpty
      (albumFileMeta d) p.tags (d.files.map (fun f => f.name)) (albumVideos d).length
      1 (albumVideos d) a h1 with ⟨j, f, rfl⟩
    rw [mkVideoEntry_tags, mkVideoEntry_src]

/-- Witness for C6: a scan of a one-photo album whose path is mapped to the
empty tag list yields an asset record with `tags` present and equal to
`[]`. -/
theorem c6_tags_lookup_witness :
    c6WitAsset ∈ (scan_portfolio c6WitPortfolio).1 ∧
      c6WitAsset.tags = List.lookup c6WitAsset.src c6WitPortfolio.tags :=
  ⟨by decide, c6_tags_lookup c6WitPortfolio c6WitAsset (by decide)⟩

/- ── Claim theorems: album-title placement (C1) ───────────────────────── -/

theorem buildPhotos_albumTitle_tail (albumName : String) (aTitle : Option String)
    (fileMeta : List (String × AssetMeta)) (tagsData : List (String × List String))
    (total : Nat) : ∀ (i : Nat) (fs : List FileEntry), 2 ≤ i →
    (buildPhotos albumName aTitle fileMeta tagsData total i fs).map (fun a => a.albumTitle) =
      List.replicate fs.length none := by
  intro i fs
  induction fs generalizing i with
  | nil => intro _; rfl
  | cons f fs ih =>
    intro h2
    have hne : (i == 1) = false := by
      simp only [beq_eq_false_iff_ne, ne_eq]
      omega
    simp [buildPhotos, mkPhotoEntry_albumTitle, hne, ih (i + 1) (by omega),
      List.replicate_succ]

theorem buildPhotos_albumTitle_head (albumName : String) (aTitle : Option String)
    (fileMeta : List (String × AssetMeta)) (tagsData : List (String × List String))
    (total : Nat) (f : FileEntry) (fs : List FileEntry)
    (ht : truthyStr aTitle = true) :
    (buildPhotos albumName aTitle fileMeta tagsData total 1 (f :: fs)).map
        (fun a => a.albumTitle) =
      aTitle :: List.replicate fs.length none := by
  simp [buildPhotos, mkPhotoEntry_albumTitle, ht,
    buildPhotos_albumTitle_tail albumName aTitle fileMeta tagsData total 2 fs (by omega)]

theorem buildVideos_albumTitle_map (albumName : String) (aTitle : Option String)
    (photosEmpty : Bool) (fileMeta : List (String × AssetMeta))
    (tagsData : List (String × List String)) (listing : List String)
    (total : Nat) : ∀ (i : Nat) (fs : List FileEntry),
    (buildVideos albumName aTitle photosEmpty fileMeta tagsData listing total i fs).map
        (fun a => a.albumTitle) =
      List.replicate fs.length (if truthyStr aTitle && photosEmpty then aTitle else none) := by
  intro i fs
  induction fs generalizing i with
  | nil => rfl
  | cons f fs ih =>
    simp [buildVideos, mkVideoEntry_albumTitle, ih (i + 1), List.replicate_succ]

/-- Claim C1, amended: when an album has a truthy title override, the
`albumTitle` field is attached to the first photo entry only — provided the
album has at least one photo.  When the album has NO photos, the override
is attached to EVERY video entry of the album (so it is duplicated across
video records in photo-less albums, contrary to the claim as stated). -/
theorem c1_albumTitle_placement (d : AlbumDir) (tagsData : List (String × List String))
    (ht : truthyStr (albumTitleOf d) = true) :
    (albumEntries d tagsData).map (fun a => a.albumTitle) =
      (if (albumPhotos d).isEmpty then
        List.replicate (albumVideos d).length (albumTitleOf d)
      else
        albumTitleOf d ::
          List.replicate ((albumPhotos d).length - 1 + (albumVideos d).length) none) := by
  rw [albumEntries, List.map_append]
  cases hp : albumPhotos d with
  | nil =>
    rw [buildVideos_albumTitle_map d.name (albumTitleOf d) (List.isEmpty [])
      (albumFileMeta d) tagsData (d.files.map (fun f => f.name)) (albumVideos d).length
      1 (albumVideos d)]
    simp [buildPhotos, ht]
  | cons f fs =>
    rw [buildPhotos_albumTitle_head d.name (albumTitleOf d) (albumFileMeta d) tagsData
      (f :: fs).length f fs ht]
    rw [buildVideos_albumTitle_map d.name (albumTitleOf d) (List.isEmpty (f :: fs))
      (albumFileMeta d) tagsData (d.files.map (fun f => f.name)) (albumVideos d).length
      1 (albumVideos d)]
    simp only [List.isEmpty_cons, Bool.and_false, List.length_cons, Nat.add_sub_cancel,
      List.cons_append, Bool.false_eq_true, if_false, List.replicate_add]

/-- Counterexample to C1 as stated: scanning an album that has an
album-title override, no photos and two videos attaches the `albumTitle`
field to BOTH asset records of the album — it appears on two records, not
on exactly one. -/
theorem c1_counterexample :
    ((scan_portfolio c1CePortfolio).1.map (fun a => a.albumTitle)) =
      [some "T", some "T"] := by
  decide

/-- Witness for the amended C1 at an album with two photos and one video:
the title override lands on the first photo entry only. -/
theorem c1_albumTitle_placement_witness :
    truthyStr (albumTitleOf c1WitAlbum) = true ∧
      (albumEntries c1WitAlbum []).map (fun a => a.albumTitle) =
        (if (albumPhotos c1WitAlbum).isEmpty then
          List.replicate (albumVideos c1WitAlbum).length (albumTitleOf c1WitAlbum)
        else
          albumTitleOf c1WitAlbum ::
            List.replicate
              ((albumPhotos c1WitAlbum).length - 1 + (albumVideos c1WitAlbum).length) none) :=
  ⟨by decide, c1_albumTitle_placement c1WitAlbum [] (by decide)⟩

/- ── Claim theorems: renderer separator placement (C7) ────────────────── -/

theorem renderBody_eq_tail (l : List Asset) : ∀ (prev : String),
    renderBody (some prev) l = renderBodyTail prev l := by
  induction l with
  | nil => intro prev; rfl
  | cons a rest ih =>
    intro prev
    rw [renderBody, renderBodyTail]
    by_cases h : a.album = prev
    · have h1 : (some a.album == some prev) = true := by simp [h]
      have h2 : (a.album == prev) = true := by simp [h]
      rw [if_pos h1, if_pos h2, ih prev]
    · have h1 : (some a.album == some prev) = false := by simp [h]
      have h2 : (a.album == prev) = false := by simp [h]
      rw [h1, h2]
      simp only [Bool.false_eq_true, if_false, ih a.album]

/-- Claim C7, amended: the renderer emits one serialized record per asset,
in scanner order, and emits the album-boundary separator before the first
record and at every position where the album changes between consecutive
records — and nowhere else.  (The claim as stated omits the separator that
is always emitted before the very first record.) -/
theorem c7_separator_placement (assets : List Asset) :
    renderBody none assets = renderBodySpec assets := by
  cases assets with
  | nil => rfl
  | cons a rest =>
    rw [renderBody, renderBodySpec]
    have h : (some a.album == (none : Option String)) = false := rfl
    rw [h]
    simp only [Bool.false_eq_true, if_false, renderBody_eq_tail]

/-- Counterexample to C7 as stated: rendering a single-record asset list
produces a leading separator line even though there is no position at which
the album changes between consecutive records, so the body differs from the
claimed "separators only between consecutive records" rendering. -/
theorem c7_counterexample :
    renderBody none [c7CeAsset] ≠ renderBodyClaimed [c7CeAsset] := by decide

/- ── Infix lemmas for the serializer (C9, C10) ────────────────────────── -/

theorem joinNl_mem_within : ∀ (L : List String) (l : String), l ∈ L →
    l.data <:+: (joinNl L).data := by
  intro L
  induction L with
  | nil => intro l h; cases h
  | cons x xs ih =>
    intro l h
    cases xs with
    | nil =>
      rcases List.mem_cons.mp h with h1 | h1
      · subst h1
        exact List.infix_refl _
      · cases h1
    | cons y t =>
      rcases List.mem_cons.mp h with h1 | h1
      · subst h1
        refine ⟨[], '\n' :: (joinNl (y :: t)).data, ?_⟩
        show l.data ++ ('\n' :: (joinNl (y :: t)).data) = (l ++ "\n" ++ joinNl (y :: t)).data
        simp [data_append, List.append_assoc]
      · exact (ih l h1).trans
          ((List.suffix_append (x ++ "\n").data (joinNl (y :: t)).data).isInfix)

theorem addComma_exists (ls : List String) (l : String) (h : l ∈ ls) :
    ∃ l2, l2 ∈ addComma ls ∧ l.data <+: l2.data := by
  induction ls with
  | nil => cases h
  | cons x xs ih =>
    cases xs with
    | nil =>
      rcases List.mem_cons.mp h with h1 | h1
      · subst h1
        exact ⟨l ++ ",", List.mem_singleton.mpr rfl, ⟨[','], rfl⟩⟩
      · cases h1
    | cons y t =>
      rcases List.mem_cons.mp h with h1 | h1
      · subst h1
        exact ⟨l, List.mem_cons_self _ _, List.prefix_refl _⟩
      · rcases ih h1 with ⟨l2, hm, hp⟩
        exact ⟨l2, List.mem_cons_of_mem _ hm, hp⟩

theorem appendTrailing_mem_of_mem : ∀ (ts ls : List String) (l : String), l ∈ ls →
    ∃ l2, l2 ∈ appendTrailing ls ts ∧ l.data <+: l2.data := by
  intro ts
  induction ts with
  | nil =>
    intro ls l h
    exact ⟨l, h, List.prefix_refl _⟩
  | cons t ts ih =>
    intro ls l h
    rcases addComma_exists ls l h with ⟨l1, hm1, hp1⟩
    rcases ih (addComma ls ++ [t]) l1 (List.mem_append_left _ hm1) with ⟨l2, hm2, hp2⟩
    exact ⟨l2, hm2, hp1.trans hp2⟩

theorem appendTrailing_mem_of_trailing : ∀ (ts ls : List String) (l : String), l ∈ ts →
    ∃ l2, l2 ∈ appendTrailing ls ts ∧ l.data <+: l2.data := by
  intro ts
  induction ts with
  | nil =>
    intro ls l h
    cases h
  | cons t ts ih =>
    intro ls l h
    rcases List.mem_cons.mp h with h1 | h1
    · subst h1
      exact appendTrailing_mem_of_mem ts (addComma ls ++ [l]) l
        (List.mem_append_right _ (List.mem_singleton.mpr rfl))
    · exact ih (addComma ls ++ [t]) l h1

/-- Any line of the record body, or any prefix of such a line, occurs
contiguously in the serialized record. -/
theorem jsLine_within (a : Asset) (l l0 : String)
    (h : l0 ∈ jsBase a ∨ l0 ∈ jsTrailing a) (hp : l.data <+: l0.data) :
    occursIn l (js_entry a) := by
  have hex : ∃ l2, l2 ∈ appendTrailing (jsBase a) (jsTrailing a) ∧ l0.data <+: l2.data := by
    rcases h with h1 | h1
    · exact appendTrailing_mem_of_mem (jsTrailing a) (jsBase a) l0 h1
    · exact appendTrailing_mem_of_trailing (jsTrailing a) (jsBase a) l0 h1
  rcases hex with ⟨l2, hm, hp2⟩
  exact ((hp.trans hp2).isInfix).trans
    (joinNl_mem_within (appendTrailing (jsBase a) (jsTrailing a) ++ ["  \x7d"]) l2
      (List.mem_append_left _ hm))

/- ── Claim theorems: serializer escaping (C9) and empty tags (C10) ────── -/

/-- Claim C9: the serializer backslash-escapes single quotes in the
`albumTitle`, `caption` and `credit` values, and emits `title`, `src`,
`thumb`, `album`, `date`, `layout`, `duration` and the tag strings verbatim
(no escaping): each emitted field line contains the raw value between the
single quotes.  In particular a derived title containing a single quote is
emitted with that quote unescaped inside the single-quoted title field. -/
theorem c9_escaping (a : Asset) :
    occursIn ("    title: \x27" ++ a.title ++ "\x27") (js_entry a)
    ∧ occursIn ("    src:   \x27" ++ a.src ++ "\x27") (js_entry a)
    ∧ occursIn ("    thumb: \x27" ++ a.thumb ++ "\x27") (js_entry a)
    ∧ occursIn ("    album: \x27" ++ a.album ++ "\x27") (js_entry a)
    ∧ occursIn ("    date:  \x27" ++ a.date ++ "\x27") (js_entry a)
    ∧ (∀ t, a.albumTitle = some t → t ≠ "" →
        occursIn ("    albumTitle: \x27" ++ escapeSq t ++ "\x27") (js_entry a))
    ∧ (∀ c, a.caption = some c →
        occursIn ("    caption:  \x27" ++ escapeSq c ++ "\x27") (js_entry a))
    ∧ (∀ c, a.credit = some c →
        occursIn ("    credit:   \x27" ++ escapeSq c ++ "\x27") (js_entry a))
    ∧ (∀ l, a.layout = some l →
        occursIn ("    layout:   \x27" ++ l ++ "\x27") (js_entry a))
    ∧ (∀ dur, a.duration = some dur →
        occursIn ("    duration: \x27" ++ dur ++ "\x27") (js_entry a))
    ∧ (∀ ts, a.tags = some ts → ts ≠ [] →
        occursIn
          ("    tags:     [" ++ joinCommaSp (ts.map (fun t => "\x27" ++ t ++ "\x27")) ++ "]")
          (js_entry a)) := by
  refine ⟨?_, ?_, ?_, ?_, ?_, ?_, ?_, ?_, ?_, ?_, ?_⟩
  · exact jsLine_within a _ ("    title: \x27" ++ a.title ++ "\x27" ++ ",")
      (Or.inl (by simp [jsBase])) ⟨",".data, rfl⟩
  · exact jsLine_within a _ ("    src:   \x27" ++ a.src ++ "\x27" ++ ",")
      (Or.inl (by simp [jsBase])) ⟨",".data, rfl⟩
  · exact jsLine_within a _ ("    thumb: \x27" ++ a.thumb ++ "\x27" ++ ",")
      (Or.inl (by simp [jsBase])) ⟨",".data, rfl⟩
  · exact jsLine_within a _ ("    album: \x27" ++ a.album ++ "\x27" ++ ",")
      (Or.inl (by simp [jsBase])) ⟨",".data, rfl⟩
  · exact jsLine_within a _ ("    date:  \x27" ++ a.date ++ "\x27")
      (Or.inl (by simp [jsBase])) (List.prefix_refl _)
  · intro t h hne
    exact jsLine_within a _ ("    albumTitle: \x27" ++ escapeSq t ++ "\x27")
      (Or.inr (by simp [jsTrailing, h, hne])) (List.prefix_refl _)
  · intro c h
    exact jsLine_within a _ ("    caption:  \x27" ++ escapeSq c ++ "\x27")
      (Or.inr (by simp [jsTrailing, h])) (List.prefix_refl _)
  · intro c h
    exact jsLine_within a _ ("    credit:   \x27" ++ escapeSq c ++ "\x27")
      (Or.inr (by simp [jsTrailing, h])) (List.prefix_refl _)
  · intro l h
    exact jsLine_within a _ ("    layout:   \x27" ++ l ++ "\x27")
      (Or.inr (by simp [jsTrailing, h])) (List.prefix_refl _)
  · intro dur h
    exact jsLine_within a _ ("    duration: \x27" ++ dur ++ "\x27")
      (Or.inr (by simp [jsTrailing, h])) (List.prefix_refl _)
  · intro ts h hne
    exact jsLine_within a _
      ("    tags:     [" ++ joinCommaSp (ts.map (fun t => "\x27" ++ t ++ "\x27")) ++ "]")
      (Or.inr (by simp [jsTrailing, h, hne])) (List.prefix_refl _)

/-- Witness for C9 at an asset whose title, albumTitle and caption contain
single quotes: the title appears verbatim (quote unescaped) while the
albumTitle and caption values appear escaped. -/
theorem c9_escaping_witness :
    occursIn ("    title: \x27" ++ c9WitAsset.title ++ "\x27") (js_entry c9WitAsset) ∧
      occursIn ("    albumTitle: \x27" ++ escapeSq "Kids\x27 Art" ++ "\x27")
        (js_entry c9WitAsset) ∧
      occursIn ("    caption:  \x27" ++ escapeSq "mom\x27s day" ++ "\x27")
        (js_entry c9WitAsset) := by
  have h := c9_escaping c9WitAsset
  exact ⟨h.1, h.2.2.2.2.2.1 "Kids\x27 Art" rfl (by decide),
    h.2.2.2.2.2.2.1 "mom\x27s day" rfl⟩

/-- Claim C10: an asset whose attached tag list is empty is serialized with
no `tags` field at all — its record is identical to the record of the same
asset with no tag entry, so an empty-list entry in the tag document is
indistinguishable in the rendered output from a missing entry. -/
theorem c10_empty_tags_dropped (a : Asset) (h : a.tags = some []) :
    js_entry a = js_entry { a with tags := none } := by
  obtain ⟨ty, src, th, ti, al, da, at_, cap, cred, fea, ord, lay, dur, tg⟩ := a
  simp only at h
  subst h
  rfl

/-- Witness for C10: a concrete asset carrying `tags = some []` serializes
identically to the same asset with the tags field absent. -/
theorem c10_empty_tags_dropped_witness :
    c10WitAsset.tags = some [] ∧
      js_entry c10WitAsset = js_entry { c10WitAsset with tags := none } :=
  ⟨rfl, c10_empty_tags_dropped c10WitAsset rfl⟩

end UpdatePortfolio
